import Mathlib

/-!
# datadog-sync: the command-line driver `main.go`

A shallow embedding of `filteredMonitors` and `main` of `main.go`, together
with the collaborators they call.  The packages `dd` and `util` and the Go
standard library are not part of `main.go`; what `main.go` needs of them is
taken as a parameter (`Regexp`, `World`) or, for the `dd.Monitor` record and
the matcher inside `dd.SyncMonitors`, modelled from the specification.
-/

namespace DatadogSync

/-! ## Go values -/

/-- A Go slice value: either the `nil` slice or a (possibly empty) sequence
of elements.  `main.go` never relies on capacity or on aliasing between two
slices, so the backing array is not modelled. -/
inductive Slice (α : Type) where
  | nil : Slice α
  | mk (elems : List α) : Slice α
  deriving DecidableEq, Repr

namespace Slice

/-- The elements of a slice in index order; `range` over a nil slice runs
zero times. -/
def toList {α : Type} : Slice α → List α
  | nil => []
  | mk xs => xs

/-- Go `len`. -/
def len {α : Type} (s : Slice α) : Nat := s.toList.length

/-- Go `append(s, x)`: appending to the nil slice allocates. -/
def append {α : Type} : Slice α → α → Slice α
  | nil, x => mk [x]
  | mk xs, x => mk (xs ++ [x])

/-- In-place update of every element, as done by
`for i := range s { s[i] = f s[i] }`; a nil slice stays nil. -/
def mapInPlace {α : Type} (f : α → α) : Slice α → Slice α
  | nil => nil
  | mk xs => mk (xs.map f)

/-- The slice built by appending the elements of a list one by one to the
nil slice: nil when there is nothing to append. -/
def ofAppends {α : Type} : List α → Slice α
  | [] => nil
  | x :: xs => mk (x :: xs)

end Slice

/-- Go `error` values are represented by their message. -/
abbrev GoError := String

/-- Modelled from the spec: the record `dd.Monitor`, declared in package `dd`
which is missing.  `main.go` reads `Name` (a string) and assigns `nil` to
`ID`; the spec names the remaining content `Definition`, an opaque payload,
here of an arbitrary type `δ`. -/
structure Monitor (δ : Type) where
  ID : Option String
  Name : String
  Definition : δ
  deriving DecidableEq, Repr

/-- The part of Go package `regexp` used by `main.go`: `regexp.Compile` and
`(*Regexp).MatchString`.  The package is external, so it is a parameter. -/
structure Regexp where
  /-- Compiled expressions, Go `*regexp.Regexp`. -/
  Re : Type
  /-- Go `regexp.Compile`. -/
  compile : String → Except GoError Re
  /-- Go `(*Regexp).MatchString`. -/
  matchString : Re → String → Bool

/-! ## `filteredMonitors` (main.go, lines 34-49) -/

/-- The loop of `filteredMonitors`: starting from `res`, append every monitor
whose name matches. -/
def filterLoop {δ : Type} (E : Regexp) (reg : E.Re) (res : Slice (Monitor δ))
    (ms : List (Monitor δ)) : Slice (Monitor δ) :=
  ms.foldl (fun acc m => if E.matchString reg m.Name then acc.append m else acc) res

/-- Go `filteredMonitors(from, filter)`; the result is the Go pair
`([]dd.Monitor, error)` with `none` for the nil error. -/
def filteredMonitors {δ : Type} (E : Regexp) (src : Slice (Monitor δ)) (filter : String) :
    Slice (Monitor δ) × Option GoError :=
  if filter = "" then (src, none)
  else
    match E.compile filter with
    | .error err => (Slice.nil, some err)
    | .ok reg => (filterLoop E reg Slice.nil src.toList, none)

/-! ## A small regular-expression instance

Used only to evaluate the definitions on concrete inputs.  All general
theorems are stated for an arbitrary `Regexp`. -/

/-- The characters with a special meaning in Go regular expressions. -/
def metaChars : List Char :=
  ['\\', '.', '+', '*', '?', '(', ')', '|', '[', ']', '^', '$', '\x7b', '\x7d']

/-- A compiled expression of the literal fragment: a literal text, anchored
at the start of the input or not. -/
structure LitRe where
  anchored : Bool
  lit : List Char
  deriving DecidableEq, Repr

/-- Is `p` a prefix of `s`. -/
def startsWithLit : List Char → List Char → Bool
  | [], _ => true
  | _ :: _, [] => false
  | a :: p, b :: s => a == b && startsWithLit p s

/-- Does `p` occur in `s`. -/
def containsLit (p : List Char) : List Char → Bool
  | [] => startsWithLit p []
  | b :: s => startsWithLit p (b :: s) || containsLit p s

/-- Compile a pattern of the literal fragment: an optional leading `^`
followed by characters without special meaning.  Every other pattern is
refused; in particular the unbalanced `(`, which Go refuses as well. -/
def litCompile (pat : String) : Except GoError LitRe :=
  match pat.data with
  | '^' :: rest =>
    if rest.all (fun c => !metaChars.contains c) then .ok ⟨true, rest⟩
    else .error ("error parsing regexp: " ++ pat)
  | cs =>
    if cs.all (fun c => !metaChars.contains c) then .ok ⟨false, cs⟩
    else .error ("error parsing regexp: " ++ pat)

/-- Unanchored search for the literal, or a prefix test when anchored. -/
def litMatch (r : LitRe) (s : String) : Bool :=
  if r.anchored then startsWithLit r.lit s.data else containsLit r.lit s.data

/-- The literal fragment as an instance of `Regexp`. -/
def litRegexp : Regexp where
  Re := LitRe
  compile := litCompile
  matchString := litMatch

/-! ## `main` (main.go, lines 51-136) -/

/-- Go `util.Format`, with the two constants `main.go` uses. -/
inductive Format where
  | JSON
  | YAML
  deriving DecidableEq, Repr

/-- Go `type mode int` with constants `pull` and `push`. -/
inductive mode where
  | pull
  | push
  deriving DecidableEq, Repr

/-- The command-line flags after `flag.Parse()`: the six flags of `main.go`
and the two credential flags `dd.APIKey`, `dd.AppKey` of package `dd`. -/
structure Flags where
  modeStr : String
  formatStr : String
  filter : String
  dryRun : Bool
  verbose : Bool
  withIds : Bool
  APIKey : String
  AppKey : String
  deriving DecidableEq, Repr

/-- The collaborators of `main`: the process environment, standard input and
the functions of packages `dd` and `util`.  `dd.GetMonitors` authenticates
with the current values of `dd.APIKey` and `dd.AppKey`, which are therefore
its arguments here. -/
structure World (δ : Type) where
  /-- Go `os.LookupEnv`: `none` when the variable is not set (`ok = false`). -/
  lookupEnv : String → Option String
  /-- Go `dd.GetMonitors(client)`. -/
  getMonitors : String → String → Except GoError (Slice (Monitor δ))
  /-- Go `ioutil.ReadAll(os.Stdin)`. -/
  readStdin : Except GoError (List UInt8)
  /-- Go `util.Unmarshal(repr, &local, format)`. -/
  unmarshal : List UInt8 → Format → Except GoError (Slice (Monitor δ))
  /-- Go `util.Marshal(monitors, format)`. -/
  marshal : Slice (Monitor δ) → Format → Except GoError String
  /-- Go `dd.SyncMonitors(local, remote, client, dryRun, verbose)`. -/
  syncMonitors : Slice (Monitor δ) → Slice (Monitor δ) → Bool → Bool → Option GoError

/-- The calls `main` makes to its collaborators, with their arguments. -/
inductive Event (δ : Type) where
  | getMonitors (apiKey appKey : String)
  | marshal (monitors : Slice (Monitor δ)) (format : Format)
  | println (repr : String)
  | readStdin
  | unmarshal (repr : List UInt8) (format : Format)
  | syncMonitors (loc remote : Slice (Monitor δ)) (dryRun verbose : Bool)
  deriving DecidableEq, Repr

/-- How the process ends: `main` returns, or `logrus.Fatal` logs a message
(with the error attached by `WithError`, if any) and exits with status 1. -/
inductive Exit where
  | ok
  | fatal (msg : String) (err : Option GoError)
  deriving DecidableEq, Repr

/-- One run of `main`: the collaborator calls in order, and the exit. -/
structure Run (δ : Type) where
  trace : List (Event δ)
  exit : Exit
  deriving DecidableEq, Repr

/-- The first `switch` of `main`, on `*modeStr`. -/
def parseMode (modeStr : String) : Option mode :=
  if modeStr = "pull" then some mode.pull
  else if modeStr = "push" then some mode.push
  else none

/-- The second `switch` of `main`, on `*formatStr`. -/
def parseFormat (formatStr : String) : Option Format :=
  if formatStr = "json" then some Format.JSON
  else if formatStr = "yaml" then some Format.YAML
  else none

/-- The credential blocks of `main` (lines 77-89): an empty flag is replaced
by the environment variable, and only an unset variable (`!ok`) is fatal. -/
def resolveKey (flagValue : String) (env : Option String) : Option String :=
  if flagValue = "" then
    match env with
    | some v => some v
    | none => none
  else some flagValue

/-- The loop `for i := range remote { remote[i].ID = nil }`. -/
def stripIDs {δ : Type} (remote : Slice (Monitor δ)) : Slice (Monitor δ) :=
  remote.mapInPlace (fun m => { m with ID := none })

/-- The `pull` branch of `main` (lines 104-115), after the calls in `pre`. -/
def mainPull {δ : Type} (W : World δ) (F : Flags) (format : Format)
    (pre : List (Event δ)) (remote : Slice (Monitor δ)) : Run δ :=
  let remote := if !F.withIds then stripIDs remote else remote
  match W.marshal remote format with
  | .error err =>
    ⟨pre ++ [Event.marshal remote format], Exit.fatal "could not serialize monitors" (some err)⟩
  | .ok repr =>
    ⟨pre ++ [Event.marshal remote format, Event.println repr], Exit.ok⟩

/-- The `push` branch of `main` (lines 116-135), after the calls in `pre`. -/
def mainPush {δ : Type} (E : Regexp) (W : World δ) (F : Flags) (format : Format)
    (pre : List (Event δ)) (remote : Slice (Monitor δ)) : Run δ :=
  match W.readStdin with
  | .error err =>
    ⟨pre ++ [Event.readStdin], Exit.fatal "could not read from standard input" (some err)⟩
  | .ok repr =>
    match W.unmarshal repr format with
    | .error err =>
      ⟨pre ++ [Event.readStdin, Event.unmarshal repr format],
        Exit.fatal "could not deserialize monitors" (some err)⟩
    | .ok loc =>
      match filteredMonitors E loc F.filter with
      | (_, some err) =>
        ⟨pre ++ [Event.readStdin, Event.unmarshal repr format],
          Exit.fatal "could not filter local monitors" (some err)⟩
      | (loc, none) =>
        match W.syncMonitors loc remote F.dryRun F.verbose with
        | some err =>
          ⟨pre ++ [Event.readStdin, Event.unmarshal repr format,
              Event.syncMonitors loc remote F.dryRun F.verbose],
            Exit.fatal "could not sync monitors: %v" (some err)⟩
        | none =>
          ⟨pre ++ [Event.readStdin, Event.unmarshal repr format,
              Event.syncMonitors loc remote F.dryRun F.verbose], Exit.ok⟩

/-- Go `main`, from the parsed flags on. -/
def main {δ : Type} (E : Regexp) (W : World δ) (F : Flags) : Run δ :=
  match parseMode F.modeStr with
  | none => ⟨[], Exit.fatal ("unsupported mode " ++ F.modeStr) none⟩
  | some action =>
    match parseFormat F.formatStr with
    | none => ⟨[], Exit.fatal ("unsupported format " ++ F.formatStr) none⟩
    | some format =>
      match resolveKey F.APIKey (W.lookupEnv "DATADOG_API_KEY") with
      | none => ⟨[], Exit.fatal "no API key provided" none⟩
      | some apiKey =>
        match resolveKey F.AppKey (W.lookupEnv "DATADOG_APP_KEY") with
        | none => ⟨[], Exit.fatal "no application key provided" none⟩
        | some appKey =>
          match W.getMonitors apiKey appKey with
          | .error err =>
            ⟨[Event.getMonitors apiKey appKey], Exit.fatal "could not pull monitors" (some err)⟩
          | .ok remote =>
            match filteredMonitors E remote F.filter with
            | (_, some err) =>
              ⟨[Event.getMonitors apiKey appKey],
                Exit.fatal "could not filter remote monitors" (some err)⟩
            | (remote, none) =>
              match action with
              | mode.pull => mainPull W F format [Event.getMonitors apiKey appKey] remote
              | mode.push => mainPush E W F format [Event.getMonitors apiKey appKey] remote

/-- The calls that reach the remote service: listing, and the engine that
creates, updates and deletes. -/
def Event.isRemote {δ : Type} : Event δ → Bool
  | Event.getMonitors _ _ => true
  | Event.syncMonitors _ _ _ _ => true
  | _ => false

/-- Is the call an invocation of `dd.SyncMonitors`. -/
def Event.isSync {δ : Type} : Event δ → Bool
  | Event.syncMonitors _ _ _ _ => true
  | _ => false

/-- Did the run end through `logrus.Fatal`. -/
def Exit.isFatal : Exit → Bool
  | Exit.fatal _ _ => true
  | Exit.ok => false

/-! ## Configuration errors -/

/-- The mode is neither `pull` nor `push`. -/
def badMode (F : Flags) : Bool :=
  F.modeStr != "pull" && F.modeStr != "push"

/-- The format is neither `yaml` nor `json`. -/
def badFormat (F : Flags) : Bool :=
  F.formatStr != "yaml" && F.formatStr != "json"

/-- A credential is not provided: its flag is empty and its environment
variable is not set. -/
def keyMissing (flagValue : String) (env : Option String) : Bool :=
  flagValue == "" && env.isNone

/-- A credential is empty after flag and environment lookup: its flag is
empty and its environment variable is not set or set to the empty string. -/
def keyEmpty (flagValue : String) (env : Option String) : Bool :=
  flagValue == "" && (env.getD "" == "")

/-- One of the two credentials is not provided. -/
def missingCredentials {δ : Type} (W : World δ) (F : Flags) : Bool :=
  keyMissing F.APIKey (W.lookupEnv "DATADOG_API_KEY")
    || keyMissing F.AppKey (W.lookupEnv "DATADOG_APP_KEY")

/-- The filter pattern is non-empty and does not compile. -/
def invalidFilter (E : Regexp) (F : Flags) : Bool :=
  F.filter != "" &&
    (match E.compile F.filter with
     | .error _ => true
     | .ok _ => false)

/-- The configuration errors of the specification. -/
def configError {δ : Type} (E : Regexp) (W : World δ) (F : Flags) : Bool :=
  badMode F || badFormat F || missingCredentials W F || invalidFilter E F

/-! ## The matcher of the reconciliation engine

`dd.SyncMonitors` lives in package `dd`, which is missing; its planning step
is modelled from section 4.2 of the specification. -/

/-- Modelled from the spec: `MutationIntent` of package `dd` (missing), one
of `Create(Monitor)`, `Update(ID, Monitor)`, `Delete(ID, Name)`,
`Noop(Monitor)`.  The identifier carried is the remote monitor's `ID` field. -/
inductive MutationIntent (δ : Type) where
  | Create (m : Monitor δ)
  | Update (id : Option String) (m : Monitor δ)
  | Delete (id : Option String) (name : String)
  | Noop (m : Monitor δ)
  deriving DecidableEq, Repr

/-- Modelled from the spec: `sameDefinition(a, b)` of package `dd` (missing),
deep equality of `Definition`, `ID` excluded. -/
def sameDefinition {δ : Type} [DecidableEq δ] (a b : Monitor δ) : Bool :=
  decide (a.Definition = b.Definition)

/-- Modelled from the spec: the mapping `Name → Monitor` built from the
remote set by the matcher of package `dd` (missing); when names collide the
last one wins. -/
def nameIndex {δ : Type} (remote : List (Monitor δ)) : String → Option (Monitor δ) :=
  remote.foldl (fun idx r => fun name => if name = r.Name then some r else idx name)
    (fun _ => none)

/-- Modelled from the spec: the intent the matcher of package `dd` (missing)
emits for one local monitor: `Create` if no remote monitor shares its name,
`Noop` if one does with the same definition, `Update` with the remote `ID`
if one does with a different definition. -/
def intentFor {δ : Type} [DecidableEq δ] (idx : String → Option (Monitor δ))
    (l : Monitor δ) : MutationIntent δ :=
  match idx l.Name with
  | none => MutationIntent.Create l
  | some r =>
    if sameDefinition l r then MutationIntent.Noop l
    else MutationIntent.Update r.ID l

/-- Modelled from the spec: the plan of the matcher inside `dd.SyncMonitors`
(package `dd`, missing): one intent per local monitor through the name index,
then a `Delete` for every remote monitor whose name no local monitor has. -/
def matchMonitors {δ : Type} [DecidableEq δ] (loc remote : Slice (Monitor δ)) :
    List (MutationIntent δ) :=
  let idx := nameIndex remote.toList
  let matched := loc.toList.map (fun l => l.Name)
  loc.toList.map (intentFor idx)
    ++ (remote.toList.filter (fun r => !(matched.contains r.Name))).map
        (fun r => MutationIntent.Delete r.ID r.Name)

/-- The intent the claim prescribes for a local monitor `l` against the
remote list, in the words of the specification. -/
def IntentSpec {δ : Type} (remote : List (Monitor δ)) (l : Monitor δ)
    (i : MutationIntent δ) : Prop :=
  ((∀ r ∈ remote, r.Name ≠ l.Name) ∧ i = MutationIntent.Create l)
  ∨ (∃ r ∈ remote, r.Name = l.Name ∧ r.Definition ≠ l.Definition
      ∧ i = MutationIntent.Update r.ID l)
  ∨ (∃ r ∈ remote, r.Name = l.Name ∧ r.Definition = l.Definition
      ∧ i = MutationIntent.Noop l)

/-- The deletion the claim prescribes for a remote monitor. -/
def DeleteSpec {δ : Type} (r : Monitor δ) (i : MutationIntent δ) : Prop :=
  i = MutationIntent.Delete r.ID r.Name

/-- The names within a list of monitors are pairwise distinct. -/
def DistinctNames {δ : Type} (ms : List (Monitor δ)) : Prop :=
  (ms.map (fun m => m.Name)).Nodup

/-! ## Sample collaborators

Concrete worlds and flags on which the definitions are evaluated. -/

/-- Two remote monitors, as listed by the service. -/
def sampleRemote : Slice (Monitor String) :=
  Slice.mk [⟨some "1", "db-latency", "low"⟩, ⟨some "2", "web-errors", "x"⟩]

/-- A world where both environment variables are set, listing returns
`sampleRemote`, standard input decodes to one monitor, and every other call
succeeds. -/
def sampleWorld : World String where
  lookupEnv := fun name =>
    if name = "DATADOG_API_KEY" then some "key"
    else if name = "DATADOG_APP_KEY" then some "app" else none
  getMonitors := fun _ _ => .ok sampleRemote
  readStdin := .ok [91, 93]
  unmarshal := fun _ _ => .ok (Slice.mk [⟨none, "db-latency", "high"⟩, ⟨none, "cache", "y"⟩])
  marshal := fun _ _ => .ok "dump"
  syncMonitors := fun _ _ _ _ => none

/-- The default flag values of `main.go`, with empty credential flags. -/
def defaultFlags : Flags where
  modeStr := "pull"
  formatStr := "yaml"
  filter := ""
  dryRun := false
  verbose := false
  withIds := false
  APIKey := ""
  AppKey := ""

/-- The flags of a push restricted to the monitors named `db-...`. -/
def pushFlags : Flags :=
  { defaultFlags with modeStr := "push", filter := "^db-" }

/-- Flags whose filter pattern does not compile. -/
def badFilterFlags : Flags :=
  { defaultFlags with filter := "(" }

/-- Flags with an unsupported mode. -/
def badModeFlags : Flags :=
  { defaultFlags with modeStr := "sync" }

/-- The sample world with `DATADOG_API_KEY` set to the empty string. -/
def emptyKeyWorld : World String :=
  { sampleWorld with
    lookupEnv := fun name =>
      if name = "DATADOG_API_KEY" then some ""
      else if name = "DATADOG_APP_KEY" then some "app" else none }

/-- The sample world with no environment variable set. -/
def noEnvWorld : World String :=
  { sampleWorld with lookupEnv := fun _ => none }

/-- The sample world where listing fails. -/
def noListWorld : World String :=
  { sampleWorld with getMonitors := fun _ _ => .error "503" }

/-! ## Lemmas on the filter loop -/

theorem Slice.ofAppends_toList {α : Type} (xs : List α) :
    (Slice.ofAppends xs).toList = xs := by
  cases xs <;> rfl

theorem filterLoop_cons {δ : Type} (E : Regexp) (reg : E.Re) (res : Slice (Monitor δ))
    (m : Monitor δ) (ms : List (Monitor δ)) :
    filterLoop E reg res (m :: ms)
      = filterLoop E reg (if E.matchString reg m.Name then res.append m else res) ms := by
  simp [filterLoop]

theorem filterLoop_mk {δ : Type} (E : Regexp) (reg : E.Re) (ms xs : List (Monitor δ)) :
    filterLoop E reg (Slice.mk xs) ms
      = Slice.mk (xs ++ ms.filter (fun m => E.matchString reg m.Name)) := by
  induction ms generalizing xs with
  | nil => simp [filterLoop]
  | cons m ms ih =>
    rw [filterLoop_cons]
    by_cases h : E.matchString reg m.Name = true
    · rw [if_pos h]
      show filterLoop E reg (Slice.mk (xs ++ [m])) ms = _
      rw [ih]; simp [h]
    · rw [if_neg h, ih]; simp [h]

/-- The loop from the nil slice, in closed form. -/
theorem filterLoop_nil {δ : Type} (E : Regexp) (reg : E.Re) (ms : List (Monitor δ)) :
    filterLoop E reg Slice.nil ms
      = Slice.ofAppends (ms.filter (fun m => E.matchString reg m.Name)) := by
  induction ms with
  | nil => simp [filterLoop, Slice.ofAppends]
  | cons m ms ih =>
    rw [filterLoop_cons]
    by_cases h : E.matchString reg m.Name = true
    · rw [if_pos h]
      show filterLoop E reg (Slice.mk [m]) ms = _
      rw [filterLoop_mk]; simp [h, Slice.ofAppends]
    · rw [if_neg h, ih]; simp [h]

theorem filteredMonitors_ok {δ : Type} (E : Regexp) (src : Slice (Monitor δ))
    (filter : String) (reg : E.Re) (hne : filter ≠ "") (hc : E.compile filter = .ok reg) :
    filteredMonitors E src filter
      = (Slice.ofAppends (src.toList.filter (fun m => E.matchString reg m.Name)), none) := by
  simp [filteredMonitors, hne, hc, filterLoop_nil]

theorem filteredMonitors_err {δ : Type} (E : Regexp) (src : Slice (Monitor δ))
    (filter : String) (e : GoError) (hne : filter ≠ "") (hc : E.compile filter = .error e) :
    filteredMonitors E src filter = (Slice.nil, some e) := by
  simp [filteredMonitors, hne, hc]

theorem filteredMonitors_empty {δ : Type} (E : Regexp) (src : Slice (Monitor δ)) :
    filteredMonitors E src "" = (src, none) := by
  simp [filteredMonitors]

/-! ## Lemmas on `main` -/

/-- When `dd.SyncMonitors` appears in the trace, every earlier step of the
push branch succeeded, and the trace is the full push sequence. -/
theorem main_sync_inv {δ : Type} (E : Regexp) (W : World δ) (F : Flags)
    (l r : Slice (Monitor δ)) (d v : Bool)
    (h : Event.syncMonitors l r d v ∈ (main E W F).trace) :
    F.modeStr = "push" ∧ d = F.dryRun ∧ v = F.verbose ∧
    ∃ fmt k a remote0 repr local0,
      parseFormat F.formatStr = some fmt
      ∧ resolveKey F.APIKey (W.lookupEnv "DATADOG_API_KEY") = some k
      ∧ resolveKey F.AppKey (W.lookupEnv "DATADOG_APP_KEY") = some a
      ∧ W.getMonitors k a = .ok remote0
      ∧ filteredMonitors E remote0 F.filter = (r, none)
      ∧ W.readStdin = .ok repr
      ∧ W.unmarshal repr fmt = .ok local0
      ∧ filteredMonitors E local0 F.filter = (l, none)
      ∧ (main E W F).trace
          = [Event.getMonitors k a, Event.readStdin, Event.unmarshal repr fmt,
             Event.syncMonitors l r d v] := by
  unfold main at h
  split at h
  · simp at h
  · rename_i action hmode
    split at h
    · simp at h
    · rename_i fmt hfmt
      split at h
      · simp at h
      · rename_i k hk
        split at h
        · simp at h
        · rename_i a ha
          split at h
          · simp at h
          · rename_i remote0 hget
            split at h
            · simp at h
            · rename_i fr hfr
              cases action with
              | pull =>
                simp only [mainPull] at h
                split at h <;> simp at h
              | push =>
                have hm : F.modeStr = "push" := by
                  unfold parseMode at hmode
                  split at hmode
                  · simp at hmode
                  · split at hmode
                    · assumption
                    · simp at hmode
                simp only [mainPush] at h
                split at h
                · simp at h
                · rename_i repr hrd
                  split at h
                  · simp at h
                  · rename_i local0 hun
                    split at h
                    · simp at h
                    · rename_i fl hfl
                      split at h
                      · rename_i err hs
                        simp at h
                        obtain ⟨rfl, rfl, rfl, rfl⟩ := h
                        refine ⟨hm, rfl, rfl, fmt, k, a, remote0, repr, local0, hfmt, hk, ha,
                          hget, hfr, hrd, hun, hfl, ?_⟩
                        simp [main, mainPush, hmode, hfmt, hk, ha, hget, hfr, hrd, hun, hfl, hs]
                      · rename_i err hs
                        simp at h
                        obtain ⟨rfl, rfl, rfl, rfl⟩ := h
                        refine ⟨hm, rfl, rfl, fmt, k, a, remote0, repr, local0, hfmt, hk, ha,
                          hget, hfr, hrd, hun, hfl, ?_⟩
                        simp [main, mainPush, hmode, hfmt, hk, ha, hget, hfr, hrd, hun, hfl, hs]

/-- The runs of the pull branch. -/
theorem mainPull_cases {δ : Type} (W : World δ) (F : Flags) (fmt : Format)
    (pre : List (Event δ)) (fr : Slice (Monitor δ)) :
    ∃ ms, ms = (if F.withIds = true then fr else stripIDs fr) ∧
      ((∃ err, W.marshal ms fmt = .error err ∧
          mainPull W F fmt pre fr
            = ⟨pre ++ [Event.marshal ms fmt],
                Exit.fatal "could not serialize monitors" (some err)⟩)
       ∨ (∃ repr, W.marshal ms fmt = .ok repr ∧
          mainPull W F fmt pre fr
            = ⟨pre ++ [Event.marshal ms fmt, Event.println repr], Exit.ok⟩)) := by
  refine ⟨_, rfl, ?_⟩
  unfold mainPull
  have hms : (if (!F.withIds) = true then stripIDs fr else fr)
      = (if F.withIds = true then fr else stripIDs fr) := by
    cases F.withIds <;> rfl
  simp only [hms]
  cases hm : W.marshal (if F.withIds = true then fr else stripIDs fr) fmt with
  | error err => exact Or.inl ⟨err, rfl, rfl⟩
  | ok repr => exact Or.inr ⟨repr, rfl, rfl⟩

/-- The runs of the push branch. -/
theorem mainPush_cases {δ : Type} (E : Regexp) (W : World δ) (F : Flags) (fmt : Format)
    (pre : List (Event δ)) (fr : Slice (Monitor δ)) :
    (∃ err, W.readStdin = .error err ∧
        mainPush E W F fmt pre fr
          = ⟨pre ++ [Event.readStdin],
              Exit.fatal "could not read from standard input" (some err)⟩)
    ∨ ∃ repr, W.readStdin = .ok repr ∧
      ((∃ err, W.unmarshal repr fmt = .error err ∧
          mainPush E W F fmt pre fr
            = ⟨pre ++ [Event.readStdin, Event.unmarshal repr fmt],
                Exit.fatal "could not deserialize monitors" (some err)⟩)
       ∨ ∃ local0, W.unmarshal repr fmt = .ok local0 ∧
         ((∃ x err, filteredMonitors E local0 F.filter = (x, some err) ∧
            mainPush E W F fmt pre fr
              = ⟨pre ++ [Event.readStdin, Event.unmarshal repr fmt],
                  Exit.fatal "could not filter local monitors" (some err)⟩)
          ∨ ∃ fl, filteredMonitors E local0 F.filter = (fl, none) ∧
            (mainPush E W F fmt pre fr).trace
              = pre ++ [Event.readStdin, Event.unmarshal repr fmt,
                  Event.syncMonitors fl fr F.dryRun F.verbose] ∧
            (mainPush E W F fmt pre fr).exit
              = (match W.syncMonitors fl fr F.dryRun F.verbose with
                 | some err => Exit.fatal "could not sync monitors: %v" (some err)
                 | none => Exit.ok))) := by
  unfold mainPush
  split
  · rename_i err hrd
    exact Or.inl ⟨err, hrd, rfl⟩
  · rename_i repr hrd
    refine Or.inr ⟨repr, hrd, ?_⟩
    split
    · rename_i err hun
      exact Or.inl ⟨err, hun, rfl⟩
    · rename_i local0 hun
      refine Or.inr ⟨local0, hun, ?_⟩
      split
      · rename_i x err hfl
        exact Or.inl ⟨x, err, hfl, rfl⟩
      · rename_i fl hfl
        refine Or.inr ⟨fl, hfl, ?_⟩
        split <;> simp_all

/-- The runs of `main`: an early fatal exit with no call at all, a fatal exit
right after listing, or one of the two branches. -/
theorem main_cases {δ : Type} (E : Regexp) (W : World δ) (F : Flags) :
    ((main E W F).trace = [] ∧ (main E W F).exit.isFatal = true ∧
      (parseMode F.modeStr = none ∨ parseFormat F.formatStr = none
        ∨ resolveKey F.APIKey (W.lookupEnv "DATADOG_API_KEY") = none
        ∨ resolveKey F.AppKey (W.lookupEnv "DATADOG_APP_KEY") = none))
    ∨ ∃ action fmt k a,
        parseMode F.modeStr = some action ∧ parseFormat F.formatStr = some fmt
        ∧ resolveKey F.APIKey (W.lookupEnv "DATADOG_API_KEY") = some k
        ∧ resolveKey F.AppKey (W.lookupEnv "DATADOG_APP_KEY") = some a
        ∧ ((∃ err, W.getMonitors k a = .error err ∧
              main E W F = ⟨[Event.getMonitors k a],
                Exit.fatal "could not pull monitors" (some err)⟩)
           ∨ ∃ remote0, W.getMonitors k a = .ok remote0 ∧
              ((∃ x err, filteredMonitors E remote0 F.filter = (x, some err) ∧
                  main E W F = ⟨[Event.getMonitors k a],
                    Exit.fatal "could not filter remote monitors" (some err)⟩)
               ∨ ∃ fr, filteredMonitors E remote0 F.filter = (fr, none) ∧
                  main E W F
                    = (match action with
                       | mode.pull => mainPull W F fmt [Event.getMonitors k a] fr
                       | mode.push => mainPush E W F fmt [Event.getMonitors k a] fr))) := by
  unfold main
  split
  · rename_i h; exact Or.inl ⟨rfl, rfl, Or.inl h⟩
  · rename_i action hmode
    split
    · rename_i h; exact Or.inl ⟨rfl, rfl, Or.inr (Or.inl h)⟩
    · rename_i fmt hfmt
      split
      · rename_i h; exact Or.inl ⟨rfl, rfl, Or.inr (Or.inr (Or.inl h))⟩
      · rename_i k hk
        split
        · rename_i h; exact Or.inl ⟨rfl, rfl, Or.inr (Or.inr (Or.inr h))⟩
        · rename_i a ha
          refine Or.inr ⟨action, fmt, k, a, hmode, hfmt, hk, ha, ?_⟩
          split
          · rename_i err hget
            exact Or.inl ⟨err, hget, rfl⟩
          · rename_i remote0 hget
            refine Or.inr ⟨remote0, hget, ?_⟩
            split
            · rename_i x err hfr
              exact Or.inl ⟨x, err, hfr, rfl⟩
            · rename_i fr hfr
              exact Or.inr ⟨fr, hfr, rfl⟩

theorem parseMode_eq_pull {s : String} (h : parseMode s = some mode.pull) : s = "pull" := by
  unfold parseMode at h
  split at h
  · assumption
  · split at h <;> simp at h

theorem parseMode_eq_push {s : String} (h : parseMode s = some mode.push) : s = "push" := by
  unfold parseMode at h
  split at h
  · simp at h
  · split at h
    · assumption
    · simp at h

/-- Every run of `main`, by the branch it takes: its trace, and whether it
is fatal. -/
theorem main_paths {δ : Type} (E : Regexp) (W : World δ) (F : Flags) :
    ((main E W F).trace = [] ∧ (main E W F).exit.isFatal = true ∧
      (parseMode F.modeStr = none ∨ parseFormat F.formatStr = none
        ∨ resolveKey F.APIKey (W.lookupEnv "DATADOG_API_KEY") = none
        ∨ resolveKey F.AppKey (W.lookupEnv "DATADOG_APP_KEY") = none))
    ∨ ∃ action fmt k a,
        parseMode F.modeStr = some action ∧ parseFormat F.formatStr = some fmt
        ∧ resolveKey F.APIKey (W.lookupEnv "DATADOG_API_KEY") = some k
        ∧ resolveKey F.AppKey (W.lookupEnv "DATADOG_APP_KEY") = some a
        ∧ ((∃ err, W.getMonitors k a = .error err
              ∧ (main E W F).trace = [Event.getMonitors k a]
              ∧ (main E W F).exit.isFatal = true)
           ∨ ∃ remote0, W.getMonitors k a = .ok remote0 ∧
              ((∃ x err, filteredMonitors E remote0 F.filter = (x, some err)
                  ∧ (main E W F).trace = [Event.getMonitors k a]
                  ∧ (main E W F).exit.isFatal = true)
               ∨ ∃ fr, filteredMonitors E remote0 F.filter = (fr, none) ∧
                  ((action = mode.pull ∧
                      ((main E W F).trace
                          = [Event.getMonitors k a,
                             Event.marshal (if F.withIds = true then fr else stripIDs fr) fmt]
                        ∨ ∃ repr, (main E W F).trace
                          = [Event.getMonitors k a,
                             Event.marshal (if F.withIds = true then fr else stripIDs fr) fmt,
                             Event.println repr]))
                   ∨ (action = mode.push ∧
                      (((main E W F).trace = [Event.getMonitors k a, Event.readStdin]
                          ∧ (main E W F).exit.isFatal = true)
                       ∨ ∃ repr, W.readStdin = .ok repr ∧
                          ((∃ err, W.unmarshal repr fmt = .error err
                              ∧ (main E W F).trace
                                  = [Event.getMonitors k a, Event.readStdin,
                                     Event.unmarshal repr fmt]
                              ∧ (main E W F).exit.isFatal = true)
                           ∨ ∃ local0, W.unmarshal repr fmt = .ok local0 ∧
                              ((∃ x err, filteredMonitors E local0 F.filter = (x, some err)
                                  ∧ (main E W F).trace
                                      = [Event.getMonitors k a, Event.readStdin,
                                         Event.unmarshal repr fmt]
                                  ∧ (main E W F).exit.isFatal = true)
                               ∨ ∃ fl, filteredMonitors E local0 F.filter = (fl, none)
                                  ∧ (main E W F).trace
                                      = [Event.getMonitors k a, Event.readStdin,
                                         Event.unmarshal repr fmt,
                                         Event.syncMonitors fl fr F.dryRun F.verbose])))))))
    := by
  rcases main_cases E W F with h |
    ⟨action, fmt, k, a, hmode, hfmt, hk, ha,
      ⟨err, hget, hrun⟩ | ⟨remote0, hget, ⟨x, err, hfr, hrun⟩ | ⟨fr, hfr, hrun⟩⟩⟩
  · exact Or.inl h
  · exact Or.inr ⟨action, fmt, k, a, hmode, hfmt, hk, ha,
      Or.inl ⟨err, hget, by rw [hrun], by rw [hrun]; rfl⟩⟩
  · exact Or.inr ⟨action, fmt, k, a, hmode, hfmt, hk, ha,
      Or.inr ⟨remote0, hget, Or.inl ⟨x, err, hfr, by rw [hrun], by rw [hrun]; rfl⟩⟩⟩
  · refine Or.inr ⟨action, fmt, k, a, hmode, hfmt, hk, ha,
      Or.inr ⟨remote0, hget, Or.inr ⟨fr, hfr, ?_⟩⟩⟩
    cases action with
    | pull =>
      refine Or.inl ⟨rfl, ?_⟩
      obtain ⟨ms, hms, ⟨err, _, hp⟩ | ⟨repr, _, hp⟩⟩ :=
        mainPull_cases W F fmt [Event.getMonitors k a] fr
      · left; rw [hrun]; simp only []; rw [hp, hms]; rfl
      · right; refine ⟨repr, ?_⟩; rw [hrun]; simp only []; rw [hp, hms]; rfl
    | push =>
      refine Or.inr ⟨rfl, ?_⟩
      rw [hrun]; simp only []
      rcases mainPush_cases E W F fmt [Event.getMonitors k a] fr with
        ⟨err, _, hp⟩ | ⟨repr, hrd, ⟨err, hun, hp⟩ |
          ⟨local0, hun, ⟨x, err, hfl, hp⟩ | ⟨fl, hfl, htr, _⟩⟩⟩
      · left; rw [hp]; exact ⟨rfl, rfl⟩
      · right; exact ⟨repr, hrd, Or.inl ⟨err, hun, by rw [hp]; rfl, by rw [hp]; rfl⟩⟩
      · right; exact ⟨repr, hrd, Or.inr ⟨local0, hun,
          Or.inl ⟨x, err, hfl, by rw [hp]; rfl, by rw [hp]; rfl⟩⟩⟩
      · right; exact ⟨repr, hrd, Or.inr ⟨local0, hun, Or.inr ⟨fl, hfl, by rw [htr]; rfl⟩⟩⟩

/-- A successful filter with a non-empty pattern: the pattern compiled and
the result is the sequence of matching monitors. -/
theorem filteredMonitors_ok_inv {δ : Type} (E : Regexp) (src r : Slice (Monitor δ))
    (p : String) (hne : p ≠ "") (h : filteredMonitors E src p = (r, none)) :
    ∃ reg, E.compile p = .ok reg
      ∧ r = Slice.ofAppends (src.toList.filter (fun m => E.matchString reg m.Name)) := by
  cases hc : E.compile p with
  | error e => rw [filteredMonitors_err E src p e hne hc] at h; simp at h
  | ok reg =>
    rw [filteredMonitors_ok E src p reg hne hc] at h
    exact ⟨reg, rfl, (Prod.mk.inj h).1.symm⟩

/-- A successful filter returns a subsequence of its input. -/
theorem filteredMonitors_sublist {δ : Type} (E : Regexp) (src r : Slice (Monitor δ))
    (p : String) (h : filteredMonitors E src p = (r, none)) :
    r.toList.Sublist src.toList := by
  by_cases hne : p = ""
  · subst hne
    rw [filteredMonitors_empty] at h
    rw [← (Prod.mk.inj h).1]
  · obtain ⟨reg, _, hr⟩ := filteredMonitors_ok_inv E src r p hne h
    rw [hr, Slice.ofAppends_toList]
    exact List.filter_sublist _

/-! ## The claims on `filteredMonitors` -/

/-- C1: for a non-empty pattern that compiles, `filteredMonitors` returns no
error and exactly the monitors of the input whose `Name` matches: the result
is the input filtered by the match, every returned monitor is an element of
the input whose name matches, every matching element is returned with its
multiplicity, and the result is a subsequence of the input (order kept). -/
theorem filteredMonitors_matching {δ : Type} [DecidableEq δ] (E : Regexp)
    (src : Slice (Monitor δ)) (filter : String) (reg : E.Re)
    (hne : filter ≠ "") (hc : E.compile filter = .ok reg) :
    (filteredMonitors E src filter).2 = none
    ∧ (filteredMonitors E src filter).1.toList
        = src.toList.filter (fun m => E.matchString reg m.Name)
    ∧ (∀ m ∈ (filteredMonitors E src filter).1.toList,
        m ∈ src.toList ∧ E.matchString reg m.Name = true)
    ∧ (∀ m ∈ src.toList, E.matchString reg m.Name = true →
        m ∈ (filteredMonitors E src filter).1.toList)
    ∧ (∀ m, E.matchString reg m.Name = true →
        (filteredMonitors E src filter).1.toList.count m = src.toList.count m)
    ∧ (filteredMonitors E src filter).1.toList.Sublist src.toList := by
  rw [filteredMonitors_ok E src filter reg hne hc]
  refine ⟨rfl, Slice.ofAppends_toList _, ?_, ?_, ?_, ?_⟩
  · intro m hm
    rw [Slice.ofAppends_toList] at hm
    simpa [List.mem_filter] using hm
  · intro m hm hmatch
    rw [Slice.ofAppends_toList]
    simp [List.mem_filter, hm, hmatch]
  · intro m hmatch
    rw [Slice.ofAppends_toList, List.count_filter]
    simpa using hmatch
  · rw [Slice.ofAppends_toList]
    exact List.filter_sublist _

/-- C1, evaluated: pattern `^db-` on `db-latency`, `web-errors` keeps only
`db-latency`. -/
theorem filteredMonitors_matching_witness :
    filteredMonitors litRegexp
        (Slice.mk [(⟨none, "db-latency", ()⟩ : Monitor Unit), ⟨none, "web-errors", ()⟩]) "^db-"
      = (Slice.mk [⟨none, "db-latency", ()⟩], none)
    ∧ (filteredMonitors litRegexp
        (Slice.mk [(⟨none, "db-latency", ()⟩ : Monitor Unit), ⟨none, "web-errors", ()⟩])
          "^db-").1.toList
      = (Slice.mk [(⟨none, "db-latency", ()⟩ : Monitor Unit),
          ⟨none, "web-errors", ()⟩]).toList.filter
          (fun m => litRegexp.matchString ⟨true, ['d', 'b', '-']⟩ m.Name) :=
  ⟨by decide,
   (filteredMonitors_matching litRegexp
      (Slice.mk [(⟨none, "db-latency", ()⟩ : Monitor Unit), ⟨none, "web-errors", ()⟩])
      "^db-" ⟨true, ['d', 'b', '-']⟩ (by decide) rfl).2.1⟩

/-- C2: with the empty pattern `filteredMonitors` returns its input slice
itself, unchanged, and a nil error. -/
theorem filteredMonitors_empty_pattern {δ : Type} (E : Regexp) (src : Slice (Monitor δ)) :
    filteredMonitors E src "" = (src, none)
    ∧ (filteredMonitors E src "").1.toList = src.toList
    ∧ (filteredMonitors E src "").1.len = src.len := by
  simp [filteredMonitors]

/-- C3: `filteredMonitors` returns an error exactly when the pattern is
non-empty and does not compile, and then the returned slice is nil whatever
the input is. -/
theorem filteredMonitors_error_iff {δ : Type} (E : Regexp) (src : Slice (Monitor δ))
    (filter : String) :
    ((filteredMonitors E src filter).2 ≠ none
        ↔ filter ≠ "" ∧ ∃ e, E.compile filter = .error e)
    ∧ ((filteredMonitors E src filter).2 ≠ none
        → (filteredMonitors E src filter).1 = Slice.nil) := by
  by_cases hne : filter = ""
  · subst hne
    simp [filteredMonitors]
  · cases hc : E.compile filter with
    | error e => simp [filteredMonitors_err E src filter e hne hc, hne]
    | ok reg => simp [filteredMonitors_ok E src filter reg hne hc]

/-- C3, evaluated: the pattern `(` does not compile, and the non-nil empty
input gives an error and the nil slice. -/
theorem filteredMonitors_error_iff_witness :
    (filteredMonitors litRegexp (Slice.mk ([] : List (Monitor Unit))) "(").2 ≠ none
    ∧ (filteredMonitors litRegexp (Slice.mk ([] : List (Monitor Unit))) "(").1 = Slice.nil :=
  ⟨by decide,
   (filteredMonitors_error_iff litRegexp (Slice.mk ([] : List (Monitor Unit))) "(").2
     (by decide)⟩

/-- C10: filtering is idempotent in the pattern: if `filteredMonitors` on
`src` with pattern `p` succeeds with result `r`, then on `r` with `p` it
succeeds and returns `r` again. -/
theorem filteredMonitors_idempotent {δ : Type} (E : Regexp) (src r : Slice (Monitor δ))
    (p : String) (h : filteredMonitors E src p = (r, none)) :
    filteredMonitors E r p = (r, none) := by
  by_cases hne : p = ""
  · subst hne
    exact filteredMonitors_empty E r
  · obtain ⟨reg, hc, hr⟩ := filteredMonitors_ok_inv E src r p hne h
    rw [filteredMonitors_ok E r p reg hne hc, hr, Slice.ofAppends_toList, List.filter_filter]
    simp

/-- C10, evaluated on the two sample monitors with pattern `^db-`. -/
theorem filteredMonitors_idempotent_witness :
    filteredMonitors litRegexp (Slice.mk [(⟨none, "db-latency", ()⟩ : Monitor Unit)]) "^db-"
      = (Slice.mk [⟨none, "db-latency", ()⟩], none) :=
  filteredMonitors_idempotent litRegexp
    (Slice.mk [(⟨none, "db-latency", ()⟩ : Monitor Unit), ⟨none, "web-errors", ()⟩])
    (Slice.mk [⟨none, "db-latency", ()⟩]) "^db-" (by decide)

/-! ## The claims on `main` -/

theorem parseMode_none_iff (F : Flags) : parseMode F.modeStr = none ↔ badMode F = true := by
  unfold parseMode badMode
  by_cases h1 : F.modeStr = "pull"
  · simp [h1]
  · by_cases h2 : F.modeStr = "push"
    · simp [h2]
    · simp [h1, h2]

theorem parseFormat_none_iff (F : Flags) :
    parseFormat F.formatStr = none ↔ badFormat F = true := by
  unfold parseFormat badFormat
  by_cases h1 : F.formatStr = "json"
  · simp [h1]
  · by_cases h2 : F.formatStr = "yaml"
    · simp [h2]
    · simp [h1, h2]

theorem resolveKey_none_iff (flagValue : String) (env : Option String) :
    resolveKey flagValue env = none ↔ keyMissing flagValue env = true := by
  unfold resolveKey keyMissing
  by_cases h : flagValue = ""
  · cases env <;> simp [h]
  · simp [h]

theorem resolveKey_some {flagValue : String} {env : Option String} {k : String}
    (h : resolveKey flagValue env = some k) :
    if flagValue = "" then env = some k else k = flagValue := by
  unfold resolveKey at h
  by_cases hf : flagValue = ""
  · cases env <;> simp_all
  · simp_all

theorem invalidFilter_err {δ : Type} (E : Regexp) (F : Flags) (src : Slice (Monitor δ))
    (h : invalidFilter E F = true) :
    ∃ e, filteredMonitors E src F.filter = (Slice.nil, some e) := by
  unfold invalidFilter at h
  have hne : F.filter ≠ "" := by
    intro h0; simp [h0] at h
  cases hc : E.compile F.filter with
  | error e => exact ⟨e, filteredMonitors_err E src F.filter e hne hc⟩
  | ok reg => simp [hc] at h

/-- C4, as the code has it: a configuration error is fatal and nothing is
marshalled or synchronised; a bad mode, a bad format and a missing credential
end the run before any call, while an invalid filter pattern, the rest of
the configuration being valid, is reported after the one call to
`dd.GetMonitors`. -/
theorem main_config_error {δ : Type} (E : Regexp) (W : World δ) (F : Flags)
    (h : configError E W F = true) :
    (main E W F).exit.isFatal = true
    ∧ ((main E W F).trace = [] ∨ ∃ k a, (main E W F).trace = [Event.getMonitors k a])
    ∧ (badMode F = true ∨ badFormat F = true ∨ missingCredentials W F = true →
        (main E W F).trace = [])
    ∧ (badMode F = false → badFormat F = false → missingCredentials W F = false →
        ∃ k a, (main E W F).trace = [Event.getMonitors k a]) := by
  rcases main_paths E W F with ⟨ht, hf, hcfg⟩ |
    ⟨action, fmt, k, a, hmode, hfmt, hk, ha, rest⟩
  · refine ⟨hf, Or.inl ht, fun _ => ht, ?_⟩
    intro h1 h2 h3
    exfalso
    rw [parseMode_none_iff, parseFormat_none_iff, resolveKey_none_iff,
      resolveKey_none_iff] at hcfg
    simp only [missingCredentials, Bool.or_eq_false_iff] at h3
    rcases hcfg with hc | hc | hc | hc
    · rw [h1] at hc; exact Bool.noConfusion hc
    · rw [h2] at hc; exact Bool.noConfusion hc
    · rw [h3.1] at hc; exact Bool.noConfusion hc
    · rw [h3.2] at hc; exact Bool.noConfusion hc
  · have h1 : badMode F = false := by
      cases hb : badMode F with
      | false => rfl
      | true => rw [← parseMode_none_iff, hmode] at hb; exact Option.noConfusion hb
    have h2 : badFormat F = false := by
      cases hb : badFormat F with
      | false => rfl
      | true => rw [← parseFormat_none_iff, hfmt] at hb; exact Option.noConfusion hb
    have h3 : missingCredentials W F = false := by
      unfold missingCredentials
      rw [Bool.or_eq_false_iff]
      constructor
      · cases hb : keyMissing F.APIKey (W.lookupEnv "DATADOG_API_KEY") with
        | false => rfl
        | true => rw [← resolveKey_none_iff, hk] at hb; exact Option.noConfusion hb
      · cases hb : keyMissing F.AppKey (W.lookupEnv "DATADOG_APP_KEY") with
        | false => rfl
        | true => rw [← resolveKey_none_iff, ha] at hb; exact Option.noConfusion hb
    have h4 : invalidFilter E F = true := by
      simpa [configError, h1, h2, h3] using h
    have hno : ¬ (badMode F = true ∨ badFormat F = true ∨ missingCredentials W F = true) := by
      simp [h1, h2, h3]
    rcases rest with ⟨err, _, htr, hf⟩ | ⟨remote0, _, ⟨x, err, _, htr, hf⟩ | ⟨fr, hfr, _⟩⟩
    · exact ⟨hf, Or.inr ⟨k, a, htr⟩, fun hc => absurd hc hno, fun _ _ _ => ⟨k, a, htr⟩⟩
    · exact ⟨hf, Or.inr ⟨k, a, htr⟩, fun hc => absurd hc hno, fun _ _ _ => ⟨k, a, htr⟩⟩
    · obtain ⟨e, he⟩ := invalidFilter_err E F remote0 h4
      rw [he] at hfr
      exact absurd (Prod.mk.inj hfr).2 (by simp)

/-- C4, evaluated on an unsupported mode: the run is fatal with no call. -/
theorem main_config_error_witness :
    configError litRegexp sampleWorld badModeFlags = true
    ∧ (main litRegexp sampleWorld badModeFlags).exit.isFatal = true
    ∧ (main litRegexp sampleWorld badModeFlags).trace = [] :=
  ⟨by decide,
   (main_config_error litRegexp sampleWorld badModeFlags (by decide)).1,
   (main_config_error litRegexp sampleWorld badModeFlags (by decide)).2.2.1
     (Or.inl (by decide))⟩

/-- C4 fails as stated: with the invalid filter pattern `(` and an otherwise
valid configuration, `dd.GetMonitors` is issued before the error is
reported. -/
theorem main_config_error_counterexample :
    configError litRegexp sampleWorld badFilterFlags = true
    ∧ main litRegexp sampleWorld badFilterFlags
        = ⟨[Event.getMonitors "key" "app"],
            Exit.fatal "could not filter remote monitors" (some "error parsing regexp: (")⟩
    ∧ (main litRegexp sampleWorld badFilterFlags).trace.any Event.isRemote = true := by
  decide

/-- C8, as the code has it: whenever `dd.GetMonitors` is called, each key is
the flag value when the flag is non-empty and otherwise the value of its
environment variable, which is then set; a key is empty only when the flag
is empty and the variable is set to the empty string; and when a flag is
empty and its variable is not set, the run is fatal with no call made. -/
theorem main_credentials {δ : Type} (E : Regexp) (W : World δ) (F : Flags) :
    (∀ k a, Event.getMonitors k a ∈ (main E W F).trace →
      (if F.APIKey = "" then W.lookupEnv "DATADOG_API_KEY" = some k else k = F.APIKey)
      ∧ (if F.AppKey = "" then W.lookupEnv "DATADOG_APP_KEY" = some a else a = F.AppKey)
      ∧ (k = "" → F.APIKey = "" ∧ W.lookupEnv "DATADOG_API_KEY" = some "")
      ∧ (a = "" → F.AppKey = "" ∧ W.lookupEnv "DATADOG_APP_KEY" = some ""))
    ∧ (missingCredentials W F = true →
        (main E W F).exit.isFatal = true ∧ (main E W F).trace = []) := by
  rcases main_paths E W F with ⟨ht, hf, _⟩ |
    ⟨action, fmt, k, a, hmode, hfmt, hk, ha, rest⟩
  · refine ⟨?_, fun _ => ⟨hf, ht⟩⟩
    intro k a hmem
    rw [ht] at hmem
    exact absurd hmem (List.not_mem_nil _)
  · have hkey : ∀ k' a', Event.getMonitors k' a' ∈ (main E W F).trace → k' = k ∧ a' = a := by
      intro k' a' hmem
      rcases rest with ⟨err, _, htr, _⟩ | ⟨remote0, _, ⟨x, err, _, htr, _⟩ |
        ⟨fr, _, ⟨_, htr | ⟨repr, htr⟩⟩ | ⟨_, ⟨htr, _⟩ | ⟨repr, _, ⟨err, _, htr, _⟩ |
          ⟨local0, _, ⟨x, err, _, htr, _⟩ | ⟨fl, _, htr⟩⟩⟩⟩⟩⟩
      all_goals (rw [htr] at hmem; simpa using hmem)
    have hk1 := resolveKey_some hk
    have ha1 := resolveKey_some ha
    constructor
    · intro k' a' hmem
      obtain ⟨rfl, rfl⟩ := hkey k' a' hmem
      refine ⟨hk1, ha1, ?_, ?_⟩
      · intro h0
        subst h0
        by_cases hf : F.APIKey = ""
        · rw [if_pos hf] at hk1; exact ⟨hf, hk1⟩
        · rw [if_neg hf] at hk1; exact absurd hk1.symm hf
      · intro h0
        subst h0
        by_cases hf : F.AppKey = ""
        · rw [if_pos hf] at ha1; exact ⟨hf, ha1⟩
        · rw [if_neg hf] at ha1; exact absurd ha1.symm hf
    · intro hmiss
      exfalso
      unfold missingCredentials at hmiss
      rw [Bool.or_eq_true] at hmiss
      rcases hmiss with hb | hb
      · rw [← resolveKey_none_iff, hk] at hb; exact Option.noConfusion hb
      · rw [← resolveKey_none_iff, ha] at hb; exact Option.noConfusion hb

/-- C8, evaluated: with the keys taken from the environment the listing call
carries them, and with no variable set the run is fatal with no call. -/
theorem main_credentials_witness :
    Event.getMonitors "key" "app" ∈ (main litRegexp sampleWorld defaultFlags).trace
    ∧ sampleWorld.lookupEnv "DATADOG_API_KEY" = some "key"
    ∧ missingCredentials noEnvWorld defaultFlags = true
    ∧ (main litRegexp noEnvWorld defaultFlags).exit.isFatal = true
    ∧ (main litRegexp noEnvWorld defaultFlags).trace = [] :=
  ⟨by decide,
   by simpa using ((main_credentials litRegexp sampleWorld defaultFlags).1 "key" "app"
      (by decide)).1,
   by decide,
   (main_credentials litRegexp noEnvWorld defaultFlags).2 (by decide)⟩

/-- C8 fails as stated: with an empty flag and `DATADOG_API_KEY` set to the
empty string, the API key is empty after flag and environment lookup, yet
`dd.GetMonitors` is called with the empty key and the run ends normally. -/
theorem main_credentials_counterexample :
    keyEmpty defaultFlags.APIKey (emptyKeyWorld.lookupEnv "DATADOG_API_KEY") = true
    ∧ Event.getMonitors "" "app" ∈ (main litRegexp emptyKeyWorld defaultFlags).trace
    ∧ (main litRegexp emptyKeyWorld defaultFlags).exit = Exit.ok := by
  decide

theorem stripIDs_toList {δ : Type} (s : Slice (Monitor δ)) :
    (stripIDs s).toList = s.toList.map (fun m => { m with ID := none }) := by
  cases s <;> rfl

/-- The slice marshalled in pull mode against the filtered remote slice. -/
theorem marshalArg_props {δ : Type} (withIds : Bool) (fr : Slice (Monitor δ)) :
    (if withIds = true then fr else stripIDs fr).len = fr.len
    ∧ List.Forall₂ (fun m r => m.Name = r.Name ∧ m.Definition = r.Definition)
        (if withIds = true then fr else stripIDs fr).toList fr.toList
    ∧ (withIds = false → ∀ m ∈ (if withIds = true then fr else stripIDs fr).toList, m.ID = none)
    ∧ (withIds = true → (if withIds = true then fr else stripIDs fr) = fr) := by
  cases withIds
  · rw [if_neg Bool.false_ne_true]
    refine ⟨by simp [Slice.len, stripIDs_toList], ?_, ?_, fun hc => Bool.noConfusion hc⟩
    · rw [stripIDs_toList, List.forall₂_map_left_iff]
      exact List.forall₂_same.mpr (fun _ _ => ⟨rfl, rfl⟩)
    · intro _ m hm
      rw [stripIDs_toList, List.mem_map] at hm
      obtain ⟨m0, _, rfl⟩ := hm
      rfl
  · rw [if_pos rfl]
    exact ⟨rfl, List.forall₂_same.mpr (fun _ _ => ⟨rfl, rfl⟩),
      fun hc => Bool.noConfusion hc, fun _ => rfl⟩

/-- Membership of a call in a trace given explicitly. -/
theorem marshal_mem_inv {δ : Type} {ms ms0 : Slice (Monitor δ)} {f fmt : Format}
    {k a : String} {rest : List (Event δ)}
    (hrest : ∀ e ∈ rest, ∀ x y, e ≠ Event.marshal x y)
    (h : Event.marshal ms f ∈ Event.getMonitors k a :: Event.marshal ms0 fmt :: rest) :
    ms = ms0 ∧ f = fmt := by
  simp only [List.mem_cons] at h
  rcases h with h | h | h
  · exact Event.noConfusion h
  · injection h with h1 h2
    exact ⟨h1, h2⟩
  · exact absurd rfl (hrest _ h ms f)

/-- C6: in pull mode the slice handed to `util.Marshal` has the length and
order of the filtered remote slice, each monitor keeps `Name` and
`Definition`; without the `ids` flag every `ID` is nil, with it the slice is
the filtered remote slice itself, whose monitors are those of the listing. -/
theorem main_pull_marshal {δ : Type} (E : Regexp) (W : World δ) (F : Flags)
    (ms : Slice (Monitor δ)) (f : Format)
    (h : Event.marshal ms f ∈ (main E W F).trace) :
    F.modeStr = "pull"
    ∧ ∃ k a remote0 fr,
        Event.getMonitors k a ∈ (main E W F).trace
        ∧ W.getMonitors k a = .ok remote0
        ∧ filteredMonitors E remote0 F.filter = (fr, none)
        ∧ fr.toList.Sublist remote0.toList
        ∧ ms.len = fr.len
        ∧ List.Forall₂ (fun m r => m.Name = r.Name ∧ m.Definition = r.Definition)
            ms.toList fr.toList
        ∧ (F.withIds = false → ∀ m ∈ ms.toList, m.ID = none)
        ∧ (F.withIds = true → ms = fr) := by
  rcases main_paths E W F with ⟨ht, _, _⟩ |
    ⟨action, fmt, k, a, hmode, hfmt, hk, ha, rest⟩
  · rw [ht] at h; exact absurd h (List.not_mem_nil _)
  · rcases rest with ⟨err, _, htr, _⟩ | ⟨remote0, hget, ⟨x, err, _, htr, _⟩ |
        ⟨fr, hfr, ⟨hact, htr | ⟨repr, htr⟩⟩ | ⟨_, ⟨htr, _⟩ | ⟨repr, _, ⟨err, _, htr, _⟩ |
          ⟨local0, _, ⟨x, err, _, htr, _⟩ | ⟨fl, _, htr⟩⟩⟩⟩⟩⟩
    · rw [htr] at h; simp at h
    · rw [htr] at h; simp at h
    · have hms : ms = (if F.withIds = true then fr else stripIDs fr) ∧ f = fmt := by
        rw [htr] at h
        exact marshal_mem_inv (fun e he => absurd he (List.not_mem_nil _)) h
      have hgm : Event.getMonitors k a ∈ (main E W F).trace := by
        rw [htr]; exact List.mem_cons_self _ _
      subst hact
      refine ⟨parseMode_eq_pull hmode, k, a, remote0, fr, hgm, hget, hfr,
        filteredMonitors_sublist E remote0 fr F.filter hfr, ?_⟩
      rw [hms.1]
      exact marshalArg_props F.withIds fr
    · have hms : ms = (if F.withIds = true then fr else stripIDs fr) ∧ f = fmt := by
        rw [htr] at h
        have hrest : ∀ e ∈ [Event.println repr], ∀ (x : Slice (Monitor δ)) (y : Format),
            e ≠ Event.marshal x y := by
          intro e he x y hxy
          rw [List.mem_singleton] at he
          rw [he] at hxy
          exact Event.noConfusion hxy
        exact marshal_mem_inv hrest h
      have hgm : Event.getMonitors k a ∈ (main E W F).trace := by
        rw [htr]; exact List.mem_cons_self _ _
      subst hact
      refine ⟨parseMode_eq_pull hmode, k, a, remote0, fr, hgm, hget, hfr,
        filteredMonitors_sublist E remote0 fr F.filter hfr, ?_⟩
      rw [hms.1]
      exact marshalArg_props F.withIds fr
    · rw [htr] at h; simp at h
    · rw [htr] at h; simp at h
    · rw [htr] at h; simp at h
    · rw [htr] at h; simp at h

/-- C6, evaluated: the default pull of the two sample monitors marshals
them in order with their identifiers removed. -/
theorem main_pull_marshal_witness :
    Event.marshal (Slice.mk [⟨none, "db-latency", "low"⟩, ⟨none, "web-errors", "x"⟩])
        Format.YAML ∈ (main litRegexp sampleWorld defaultFlags).trace
    ∧ defaultFlags.modeStr = "pull" :=
  ⟨by decide,
   (main_pull_marshal litRegexp sampleWorld defaultFlags
      (Slice.mk [⟨none, "db-latency", "low"⟩, ⟨none, "web-errors", "x"⟩]) Format.YAML
      (by decide)).1⟩

/-- The calls of a trace that invoke `dd.SyncMonitors`, when the trace is one
of those `main` produces. -/
theorem sync_count_le_one {δ : Type} (E : Regexp) (W : World δ) (F : Flags) :
    ((main E W F).trace.filter Event.isSync).length ≤ 1 := by
  rcases main_paths E W F with ⟨ht, _, _⟩ |
    ⟨action, fmt, k, a, _, _, _, _, rest⟩
  · rw [ht]; simp
  · rcases rest with ⟨err, _, htr, _⟩ | ⟨remote0, hget, ⟨x, err, _, htr, _⟩ |
        ⟨fr, hfr, ⟨hact, htr | ⟨repr, htr⟩⟩ | ⟨_, ⟨htr, _⟩ | ⟨repr, _, ⟨err, _, htr, _⟩ |
          ⟨local0, _, ⟨x, err, _, htr, _⟩ | ⟨fl, _, htr⟩⟩⟩⟩⟩⟩
    all_goals (rw [htr]; simp [Event.isSync])

/-- A failed listing ends the run fatally with no synchronisation. -/
theorem listing_failure_fatal {δ : Type} (E : Regexp) (W : World δ) (F : Flags)
    (k a : String) (err : GoError)
    (hmem : Event.getMonitors k a ∈ (main E W F).trace)
    (herr : W.getMonitors k a = .error err) :
    (main E W F).exit.isFatal = true ∧ ∀ e ∈ (main E W F).trace, e.isSync = false := by
  rcases main_paths E W F with ⟨ht, _, _⟩ |
    ⟨action, fmt, k0, a0, _, _, _, _, rest⟩
  · rw [ht] at hmem; exact absurd hmem (List.not_mem_nil _)
  · have hka : k = k0 ∧ a = a0 := by
      rcases rest with ⟨err, _, htr, _⟩ | ⟨remote0, hget, ⟨x, err, _, htr, _⟩ |
        ⟨fr, hfr, ⟨hact, htr | ⟨repr, htr⟩⟩ | ⟨_, ⟨htr, _⟩ | ⟨repr, _, ⟨err, _, htr, _⟩ |
          ⟨local0, _, ⟨x, err, _, htr, _⟩ | ⟨fl, _, htr⟩⟩⟩⟩⟩⟩
      all_goals (rw [htr] at hmem; simpa using hmem)
    obtain ⟨rfl, rfl⟩ := hka
    rcases rest with ⟨err, _, htr, hf⟩ | ⟨remote0, hget, _⟩
    · refine ⟨hf, ?_⟩
      rw [htr]
      simp [Event.isSync]
    · rw [herr] at hget
      exact Except.noConfusion hget

/-- A failed deserialisation ends the run fatally with no synchronisation. -/
theorem unmarshal_failure_fatal {δ : Type} (E : Regexp) (W : World δ) (F : Flags)
    (repr : List UInt8) (f : Format) (err : GoError)
    (hmem : Event.unmarshal repr f ∈ (main E W F).trace)
    (herr : W.unmarshal repr f = .error err) :
    (main E W F).exit.isFatal = true ∧ ∀ e ∈ (main E W F).trace, e.isSync = false := by
  rcases main_paths E W F with ⟨ht, _, _⟩ |
    ⟨action, fmt, k0, a0, _, _, _, _, rest⟩
  · rw [ht] at hmem; exact absurd hmem (List.not_mem_nil _)
  · rcases rest with ⟨err, _, htr, _⟩ | ⟨remote0, hget, ⟨x, err, _, htr, _⟩ |
        ⟨fr, hfr, ⟨hact, htr | ⟨repr0, htr⟩⟩ | ⟨_, ⟨htr, _⟩ | ⟨repr0, _, ⟨err0, hun, htr, hf⟩ |
          ⟨local0, hun, ⟨x, err0, _, htr, hf⟩ | ⟨fl, _, htr⟩⟩⟩⟩⟩⟩
    · rw [htr] at hmem; simp at hmem
    · rw [htr] at hmem; simp at hmem
    · rw [htr] at hmem; simp at hmem
    · rw [htr] at hmem; simp at hmem
    · rw [htr] at hmem; simp at hmem
    · refine ⟨hf, ?_⟩
      rw [htr]
      simp [Event.isSync]
    · rw [htr] at hmem
      simp at hmem
      obtain ⟨rfl, rfl⟩ := hmem
      rw [herr] at hun
      exact Except.noConfusion hun
    · rw [htr] at hmem
      simp at hmem
      obtain ⟨rfl, rfl⟩ := hmem
      rw [herr] at hun
      exact Except.noConfusion hun

/-- C5: `dd.SyncMonitors` is invoked at most once per run, and only in push
mode after listing, filtering the remote set, reading standard input,
deserialising and filtering the local set all succeeded; a failed listing
and a failed deserialisation end the run fatally with no invocation. -/
theorem main_sync_guarded {δ : Type} (E : Regexp) (W : World δ) (F : Flags) :
    ((main E W F).trace.filter Event.isSync).length ≤ 1
    ∧ (∀ l r d v, Event.syncMonitors l r d v ∈ (main E W F).trace →
        F.modeStr = "push"
        ∧ ∃ k a remote0 repr fmt local0,
            W.getMonitors k a = .ok remote0
            ∧ (filteredMonitors E remote0 F.filter).2 = none
            ∧ W.readStdin = .ok repr
            ∧ W.unmarshal repr fmt = .ok local0
            ∧ (filteredMonitors E local0 F.filter).2 = none
            ∧ (main E W F).trace
                = [Event.getMonitors k a, Event.readStdin, Event.unmarshal repr fmt,
                   Event.syncMonitors l r d v])
    ∧ (∀ k a err, Event.getMonitors k a ∈ (main E W F).trace →
        W.getMonitors k a = .error err →
        (main E W F).exit.isFatal = true ∧ ∀ e ∈ (main E W F).trace, e.isSync = false)
    ∧ (∀ repr f err, Event.unmarshal repr f ∈ (main E W F).trace →
        W.unmarshal repr f = .error err →
        (main E W F).exit.isFatal = true ∧ ∀ e ∈ (main E W F).trace, e.isSync = false) := by
  refine ⟨sync_count_le_one E W F, ?_, listing_failure_fatal E W F,
    unmarshal_failure_fatal E W F⟩
  intro l r d v h
  obtain ⟨hm, _, _, fmt, k, a, remote0, repr, local0, _, _, _, hget, hfr, hrd, hun, hfl, htr⟩ :=
    main_sync_inv E W F l r d v h
  exact ⟨hm, k, a, remote0, repr, fmt, local0, hget, by rw [hfr], hrd, hun, by rw [hfl], htr⟩

/-- C5, evaluated: the sample push invokes `dd.SyncMonitors` once, and a run
whose listing fails is fatal and invokes nothing. -/
theorem main_sync_guarded_witness :
    pushFlags.modeStr = "push"
    ∧ ((main litRegexp sampleWorld pushFlags).trace.filter Event.isSync).length = 1
    ∧ (main litRegexp noListWorld pushFlags).exit.isFatal = true
    ∧ ((main litRegexp noListWorld pushFlags).trace.filter Event.isSync).length = 0 :=
  ⟨((main_sync_guarded litRegexp sampleWorld pushFlags).2.1
      (Slice.mk [⟨none, "db-latency", "high"⟩]) (Slice.mk [⟨some "1", "db-latency", "low"⟩])
      false false (by decide)).1,
   by decide,
   ((main_sync_guarded litRegexp noListWorld pushFlags).2.2.1 "key" "app" "503"
      (by decide) rfl).1,
   by decide⟩

/-- C7: whenever `dd.SyncMonitors` is invoked, its first argument is
`filteredMonitors` of the deserialised standard input and its second is
`filteredMonitors` of the listed remote monitors, with the same pattern;
for a non-empty pattern every monitor of both has a matching `Name`, and a
listed monitor whose `Name` does not match is not in the second argument. -/
theorem main_sync_arguments {δ : Type} (E : Regexp) (W : World δ) (F : Flags)
    (l r : Slice (Monitor δ)) (d v : Bool)
    (h : Event.syncMonitors l r d v ∈ (main E W F).trace) :
    F.modeStr = "push"
    ∧ ∃ k a remote0 repr fmt local0,
        Event.getMonitors k a ∈ (main E W F).trace
        ∧ W.getMonitors k a = .ok remote0
        ∧ W.readStdin = .ok repr
        ∧ W.unmarshal repr fmt = .ok local0
        ∧ filteredMonitors E local0 F.filter = (l, none)
        ∧ filteredMonitors E remote0 F.filter = (r, none)
        ∧ (F.filter ≠ "" → ∃ reg, E.compile F.filter = .ok reg
            ∧ (∀ m ∈ l.toList, E.matchString reg m.Name = true)
            ∧ (∀ m ∈ r.toList, E.matchString reg m.Name = true)
            ∧ (∀ m ∈ remote0.toList, E.matchString reg m.Name = false → m ∉ r.toList)) := by
  obtain ⟨hm, _, _, fmt, k, a, remote0, repr, local0, _, _, _, hget, hfr, hrd, hun, hfl, htr⟩ :=
    main_sync_inv E W F l r d v h
  refine ⟨hm, k, a, remote0, repr, fmt, local0, ?_, hget, hrd, hun, hfl, hfr, ?_⟩
  · rw [htr]; exact List.mem_cons_self _ _
  · intro hne
    obtain ⟨reg, hc, hr⟩ := filteredMonitors_ok_inv E remote0 r F.filter hne hfr
    obtain ⟨reg2, hc2, hl⟩ := filteredMonitors_ok_inv E local0 l F.filter hne hfl
    have hreg : reg2 = reg := by
      rw [hc] at hc2
      injection hc2 with h1
      exact h1.symm
    subst hreg
    refine ⟨reg2, hc, ?_, ?_, ?_⟩
    · intro m hmem
      rw [hl, Slice.ofAppends_toList, List.mem_filter] at hmem
      exact hmem.2
    · intro m hmem
      rw [hr, Slice.ofAppends_toList, List.mem_filter] at hmem
      exact hmem.2
    · intro m _ hno hmem
      rw [hr, Slice.ofAppends_toList, List.mem_filter] at hmem
      rw [hno] at hmem
      exact Bool.noConfusion hmem.2

/-- C7, evaluated: the sample push with pattern `^db-` hands the engine the
filtered local and remote monitors. -/
theorem main_sync_arguments_witness :
    Event.syncMonitors (Slice.mk [⟨none, "db-latency", "high"⟩])
        (Slice.mk [⟨some "1", "db-latency", "low"⟩]) false false
      ∈ (main litRegexp sampleWorld pushFlags).trace
    ∧ pushFlags.modeStr = "push" :=
  ⟨by decide,
   (main_sync_arguments litRegexp sampleWorld pushFlags
      (Slice.mk [⟨none, "db-latency", "high"⟩]) (Slice.mk [⟨some "1", "db-latency", "low"⟩])
      false false (by decide)).1⟩

/-! ## The claim on the matcher -/

theorem nameIndex_append {δ : Type} (xs : List (Monitor δ)) (r : Monitor δ) (n : String) :
    nameIndex (xs ++ [r]) n = if n = r.Name then some r else nameIndex xs n := by
  simp [nameIndex, List.foldl_append]

theorem nameIndex_some {δ : Type} (remote : List (Monitor δ)) (n : String) (r : Monitor δ)
    (h : nameIndex remote n = some r) : r ∈ remote ∧ r.Name = n := by
  induction remote using List.reverseRecOn with
  | nil => simp [nameIndex] at h
  | append_singleton xs y ih =>
    rw [nameIndex_append] at h
    by_cases hn : n = y.Name
    · rw [if_pos hn] at h
      injection h with h
      subst h
      exact ⟨by simp, hn.symm⟩
    · rw [if_neg hn] at h
      exact ⟨List.mem_append_left _ (ih h).1, (ih h).2⟩

theorem nameIndex_none {δ : Type} (remote : List (Monitor δ)) (n : String)
    (h : ∀ r ∈ remote, r.Name ≠ n) : nameIndex remote n = none := by
  cases hi : nameIndex remote n with
  | none => rfl
  | some r => exact absurd (nameIndex_some remote n r hi).2 (h r (nameIndex_some remote n r hi).1)

theorem nameIndex_of_mem {δ : Type} (remote : List (Monitor δ)) (r : Monitor δ)
    (hd : DistinctNames remote) (hr : r ∈ remote) : nameIndex remote r.Name = some r := by
  induction remote using List.reverseRecOn with
  | nil => exact absurd hr (List.not_mem_nil _)
  | append_singleton xs y ih =>
    rw [nameIndex_append]
    unfold DistinctNames at hd ih
    rw [List.map_append, List.nodup_append] at hd
    obtain ⟨hxs, _, hdis⟩ := hd
    rcases List.mem_append.mp hr with hmem | hmem
    · have hne : r.Name ≠ y.Name := by
        intro heq
        exact hdis (List.mem_map_of_mem (fun m => m.Name) hmem) (by simp [heq])
      rw [if_neg hne]
      exact ih hxs hmem
    · rw [List.mem_singleton] at hmem
      subst hmem
      simp

theorem intentFor_spec {δ : Type} [DecidableEq δ] (remote : List (Monitor δ))
    (hd : DistinctNames remote) (l : Monitor δ) :
    IntentSpec remote l (intentFor (nameIndex remote) l) := by
  unfold intentFor
  cases hi : nameIndex remote l.Name with
  | none =>
    refine Or.inl ⟨?_, rfl⟩
    intro r hr hn
    have := nameIndex_of_mem remote r hd hr
    rw [hn, hi] at this
    exact Option.noConfusion this
  | some r =>
    obtain ⟨hr, hn⟩ := nameIndex_some remote l.Name r hi
    by_cases hs : l.Definition = r.Definition
    · exact Or.inr (Or.inr ⟨r, hr, hn, hs.symm, by simp [sameDefinition, hs]⟩)
    · exact Or.inr (Or.inl ⟨r, hr, hn, fun h => hs h.symm, by simp [sameDefinition, hs]⟩)

theorem intentFor_injective {δ : Type} [DecidableEq δ] (idx : String → Option (Monitor δ))
    (l1 l2 : Monitor δ) (h : intentFor idx l1 = intentFor idx l2) : l1 = l2 := by
  unfold intentFor at h
  split at h <;> split at h <;> (try split at h) <;> (try split at h) <;> injection h

theorem intentFor_ne_delete {δ : Type} [DecidableEq δ] (idx : String → Option (Monitor δ))
    (l : Monitor δ) (id : Option String) (n : String) :
    intentFor idx l ≠ MutationIntent.Delete id n := by
  unfold intentFor
  split
  · intro h; exact MutationIntent.noConfusion h
  · split <;> intro h <;> exact MutationIntent.noConfusion h

/-- C9: for local and remote sets with distinct names within each, the plan
is the intents of the local monitors, one each and in order (`Create` if no
remote monitor has the name, `Update` with the remote `ID` if one has it
with a different definition, `Noop` if one has it with an equal definition),
followed by one `Delete` for each remote monitor whose name no local monitor
has, and no intent occurs twice. -/
theorem matchMonitors_plan {δ : Type} [DecidableEq δ] (loc remote : Slice (Monitor δ))
    (hl : DistinctNames loc.toList) (hr : DistinctNames remote.toList) :
    (∃ intents deletes, matchMonitors loc remote = intents ++ deletes
      ∧ List.Forall₂ (IntentSpec remote.toList) loc.toList intents
      ∧ List.Forall₂ DeleteSpec
          (remote.toList.filter (fun r => decide (∀ l ∈ loc.toList, l.Name ≠ r.Name)))
          deletes)
    ∧ (matchMonitors loc remote).Nodup := by
  constructor
  · refine ⟨loc.toList.map (intentFor (nameIndex remote.toList)),
      (remote.toList.filter (fun r => decide (∀ l ∈ loc.toList, l.Name ≠ r.Name))).map
        (fun r => MutationIntent.Delete r.ID r.Name), ?_, ?_, ?_⟩
    · have hf : remote.toList.filter
            (fun r => !((loc.toList.map (fun l => l.Name)).contains r.Name))
          = remote.toList.filter (fun r => decide (∀ l ∈ loc.toList, l.Name ≠ r.Name)) := by
        apply List.filter_congr
        intro r _
        rw [Bool.eq_iff_iff]
        simp [List.contains_iff_exists_mem_beq]
      show loc.toList.map (intentFor (nameIndex remote.toList))
          ++ (remote.toList.filter
                (fun r => !((loc.toList.map (fun l => l.Name)).contains r.Name))).map
              (fun (r : Monitor δ) => MutationIntent.Delete r.ID r.Name) = _
      rw [hf]
    · rw [List.forall₂_map_right_iff]
      exact List.forall₂_same.mpr (fun l _ => intentFor_spec remote.toList hr l)
    · rw [List.forall₂_map_right_iff]
      exact List.forall₂_same.mpr (fun r _ => rfl)
  · show (loc.toList.map (intentFor (nameIndex remote.toList))
          ++ (remote.toList.filter
                (fun (r : Monitor δ) =>
                  !((loc.toList.map (fun (l : Monitor δ) => l.Name)).contains r.Name))).map
              (fun (r : Monitor δ) => MutationIntent.Delete r.ID r.Name)).Nodup
    rw [List.nodup_append]
    refine ⟨?_, ?_, ?_⟩
    · exact (List.Nodup.of_map _ hl).map (fun l1 l2 h => intentFor_injective _ l1 l2 h)
    · have hsub : ((remote.toList.filter
          (fun r => !((loc.toList.map (fun l => l.Name)).contains r.Name))).map
            (fun m => m.Name)).Nodup :=
        hr.sublist ((List.filter_sublist _).map _)
      apply List.Nodup.of_map (fun i => match i with
        | MutationIntent.Delete _ n => n
        | _ => "")
      rw [List.map_map]
      exact hsub
    · intro i hi1 hi2
      rw [List.mem_map] at hi1 hi2
      obtain ⟨l, _, rfl⟩ := hi1
      obtain ⟨r, _, hrr⟩ := hi2
      exact intentFor_ne_delete _ l r.ID r.Name hrr.symm

/-- C9, evaluated on the example of the specification: local `cpu` (high)
against remote `cpu` (low, id 1) and `disk` (id 2) gives an update of 1
followed by a deletion of 2. -/
theorem matchMonitors_plan_witness :
    matchMonitors (Slice.mk [(⟨none, "cpu", "high"⟩ : Monitor String)])
        (Slice.mk [⟨some "1", "cpu", "low"⟩, ⟨some "2", "disk", "x"⟩])
      = [MutationIntent.Update (some "1") ⟨none, "cpu", "high"⟩,
         MutationIntent.Delete (some "2") "disk"]
    ∧ (matchMonitors (Slice.mk [(⟨none, "cpu", "high"⟩ : Monitor String)])
        (Slice.mk [⟨some "1", "cpu", "low"⟩, ⟨some "2", "disk", "x"⟩])).Nodup :=
  ⟨by decide,
   (matchMonitors_plan (Slice.mk [(⟨none, "cpu", "high"⟩ : Monitor String)])
      (Slice.mk [⟨some "1", "cpu", "low"⟩, ⟨some "2", "disk", "x"⟩])
      (by unfold DistinctNames; decide) (by unfold DistinctNames; decide)).2⟩

end DatadogSync
